import Mathlib

/-!
# Verification of the `capture` board game (src/main.go)

A shallow embedding of the Go program in `src/main.go`: a two-player
terminal board game on a 9×9 cell array (index 0 is reserved for header
labels, the playable area is rows/columns 1..8).  Each definition below
mirrors the correspondingly named Go function; I/O (stdin reading, table
printing) is replaced by passing the input line as a parameter and by
modelling only the header-label functions that rendering uses.

A Go `panic` (out-of-range slice index) is modelled by `Option`/`none`:
a panicking execution has no successor state.
-/

deriving instance DecidableEq for Except

namespace Capture

/-- Mirrors Go `type cellStatus int` with its four declared constants. -/
inductive cellStatus where
  | Available
  | Player1Occupied
  | Player2Occupied
  | Block
deriving DecidableEq, Repr

/-- Mirrors Go `const gridSize = 9`. -/
def gridSize : Nat := 9

/-- Mirrors Go `type Board struct`: the 9×9 cell grid, whose turn it is,
and both players' recorded coordinates (Go zero-valued ints before a
player's first move). A `Cell` holds only its `Status`, so a cell is
represented by `cellStatus` directly. -/
structure Board where
  Rows : List (List cellStatus)
  playerOneTurn : Bool
  playerOneRow : Nat
  playerOneCol : Nat
  playerTwoRow : Nat
  playerTwoCol : Nat
deriving DecidableEq, Repr

/-- Mirrors Go `newRow`: a row of `gridSize` `Available` cells. -/
def newRow : List cellStatus := List.replicate gridSize cellStatus.Available

/-- Mirrors Go `newBoard`: 9 fresh rows, player one to move, all player
coordinates zero-valued. -/
def newBoard : Board :=
  { Rows := List.replicate gridSize newRow
    playerOneTurn := true
    playerOneRow := 0
    playerOneCol := 0
    playerTwoRow := 0
    playerTwoCol := 0 }

/-- Mirrors the Go `init` function's `columnMapInverted` loop body:
the pair list `(string(rune(65+i)), i+1)` for `i = 0 .. gridSize-1`,
i.e. 'A' ↦ 1, 'B' ↦ 2, …, 'I' ↦ 9. -/
def columnPairs : List (Char × Nat) :=
  (List.range gridSize).map (fun i => (Char.ofNat (65 + i), i + 1))

/-- Lookup in the inverted column map built by Go `init`. -/
def columnMapInverted (letter : Char) : Option Nat :=
  (columnPairs.find? (fun p => p.fst == letter)).map Prod.snd

/-- Lookup in the forward column map built by Go `init`:
0 ↦ 'A', …, 8 ↦ 'I'.  `Render` consults it as `columnMap[j-1]`. -/
def columnMap (i : Nat) : Option Char :=
  ((columnPairs.find? (fun p => p.snd == i + 1))).map Prod.fst

/-- Mirrors Go `strconv.Atoi(string(text[1]))` on the single character
the code passes it: a decimal digit parses to its value, anything else
is an error (`none`). -/
def atoiDigit (c : Char) : Option Nat :=
  if c.isDigit then some (c.toNat - 48) else none

/-- The four distinct error returns of Go `validateInput`, in source
order: wrong length, non-numeric row, row outside `[1, gridSize]`,
unknown column letter. -/
inductive inputError where
  | notAValidPosition
  | notSerious
  | rowDoesNotExist (row : Nat)
  | columnDoesNotExist (letter : Char)
deriving DecidableEq, Repr

/-- Mirrors Go `(b *Board) validateInput(text string) (int, int, error)`.
The receiver `b` is kept because the Go method takes it, although — as in
the Go code — it is never consulted. Checks, in order: length 2, second
character numeric, `row > gridSize || row < 1`, column letter present in
`columnMapInverted`. Returns `(row, column)` on success. -/
def validateInput (_b : Board) (text : String) : Except inputError (Nat × Nat) :=
  match text.toList with
  | [letter, d] =>
    match atoiDigit d with
    | none => Except.error inputError.notSerious
    | some row =>
      if row > gridSize ∨ row < 1 then
        Except.error (inputError.rowDoesNotExist row)
      else
        match columnMapInverted letter with
        | none => Except.error (inputError.columnDoesNotExist letter)
        | some column => Except.ok (row, column)
  | _ => Except.error inputError.notAValidPosition

/-- Read cell `(r, c)` of a grid; `none` when the index is out of range
(where Go would panic). -/
def getCell (rows : List (List cellStatus)) (r c : Nat) : Option cellStatus :=
  rows[r]?.bind (fun row => row[c]?)

/-- Read cell `(r, c)` of a board. -/
def cellAt (b : Board) (r c : Nat) : Option cellStatus :=
  getCell b.Rows r c

/-- Mirrors the Go assignment `b.Rows[r][c] = Cell{Status: s}`:
`none` models the index-out-of-range panic. -/
def setCell (rows : List (List cellStatus)) (r c : Nat) (s : cellStatus) :
    Option (List (List cellStatus)) :=
  match rows[r]? with
  | none => none
  | some row =>
    if c < row.length then some (rows.set r (row.set c s)) else none

/-- Mirrors Go `(b *Board) move(moveToRow, moveToColumn int)`: block the
mover's previous cell when its recorded row is positive, occupy the
destination, record the new coordinates.  `none` models a panic on an
out-of-range write. -/
def move (b : Board) (moveToRow moveToColumn : Nat) : Option Board :=
  if b.playerOneTurn then
    (if b.playerOneRow > 0 then
        setCell b.Rows b.playerOneRow b.playerOneCol cellStatus.Block
      else some b.Rows).bind
    (fun rows1 =>
      (setCell rows1 moveToRow moveToColumn cellStatus.Player1Occupied).map
      (fun rows2 =>
        { b with Rows := rows2, playerOneRow := moveToRow, playerOneCol := moveToColumn }))
  else
    (if b.playerTwoRow > 0 then
        setCell b.Rows b.playerTwoRow b.playerTwoCol cellStatus.Block
      else some b.Rows).bind
    (fun rows1 =>
      (setCell rows1 moveToRow moveToColumn cellStatus.Player2Occupied).map
      (fun rows2 =>
        { b with Rows := rows2, playerTwoRow := moveToRow, playerTwoCol := moveToColumn }))

/-- The whitespace characters Go `strings.TrimSpace` strips for the
ASCII inputs this program sees. -/
def isSpaceChar (c : Char) : Bool :=
  c == ' ' || c == '\t' || c == '\n' || c == '\x0b' || c == '\x0c' || c == '\r'

/-- Mirrors Go `strings.TrimSpace`: drop leading and trailing
whitespace. -/
def trimSpace (text : String) : String :=
  String.mk (((text.toList.dropWhile isSpaceChar).reverse.dropWhile isSpaceChar).reverse)

/-- Outcome of one call to Go `(b *Board) Turn()`: a new state on
success, an unchanged state plus an error on validation failure, or a
crash (Go panic inside `move`). -/
inductive turnOutcome where
  | ok (b : Board)
  | rejected (e : inputError)
  | crash
deriving DecidableEq, Repr

/-- Mirrors Go `(b *Board) Turn() error` with the captured input line
passed in: trim the input, validate it, return the error unchanged on
failure, otherwise apply `move` and flip `playerOneTurn`. -/
def Turn (b : Board) (input : String) : turnOutcome :=
  match validateInput b (trimSpace input) with
  | Except.error e => turnOutcome.rejected e
  | Except.ok (row, column) =>
    match move b row column with
    | none => turnOutcome.crash
    | some b1 => turnOutcome.ok { b1 with playerOneTurn := !b1.playerOneTurn }

/-- Mirrors the loop in Go `main`: feed each input line to `Turn`; an
error keeps the same board and continues; a crash ends the program
(`none`). -/
def run (b : Board) (inputs : List String) : Option Board :=
  match inputs with
  | [] => some b
  | i :: rest =>
    match Turn b i with
    | turnOutcome.ok b1 => run b1 rest
    | turnOutcome.rejected _ => run b rest
    | turnOutcome.crash => none

/-- Number of inputs of a run that are successfully applied (neither
rejected nor crashing), counted along the loop of Go `main`. -/
def countApplied (b : Board) (inputs : List String) : Nat :=
  match inputs with
  | [] => 0
  | i :: rest =>
    match Turn b i with
    | turnOutcome.ok b1 => 1 + countApplied b1 rest
    | turnOutcome.rejected _ => countApplied b rest
    | turnOutcome.crash => 0

/-- A board the program can actually be in: reached from `newBoard` by
some input sequence. -/
def Reachable (b : Board) : Prop :=
  ∃ inputs, run newBoard inputs = some b

/-- The mover's occupancy marker: `Player1Occupied` when it is player
one's turn, `Player2Occupied` otherwise. -/
def moverStatus (b : Board) : cellStatus :=
  if b.playerOneTurn then cellStatus.Player1Occupied else cellStatus.Player2Occupied

/-- The mover's recorded coordinates before the move (the cell `move`
blocks when its row is positive). -/
def moverPrior (b : Board) : Nat × Nat :=
  if b.playerOneTurn then (b.playerOneRow, b.playerOneCol)
  else (b.playerTwoRow, b.playerTwoCol)

/-- "Playable bounds" as the specification words them: the 8×8 area of
rows 1..8 and columns 1..8 (stated for comparison with the code's
behaviour; the code itself accepts rows and columns up to 9). -/
def spec_playableBounds (r c : Nat) : Prop :=
  1 ≤ r ∧ r ≤ 8 ∧ 1 ≤ c ∧ c ≤ 8

instance (r c : Nat) : Decidable (spec_playableBounds r c) := by
  unfold spec_playableBounds
  infer_instance

/-- A cell that has been written (is out of play or occupied): it exists
and is not `Available`. -/
def visitedCell (b : Board) (i j : Nat) : Prop :=
  cellAt b i j ≠ some cellStatus.Available ∧ cellAt b i j ≠ none

instance (b : Board) (i j : Nat) : Decidable (visitedCell b i j) := by
  unfold visitedCell
  infer_instance

/-- `true` exactly on a successful turn. -/
def turnIsOk (o : turnOutcome) : Bool :=
  match o with
  | turnOutcome.ok _ => true
  | _ => false

/-- Number of cells of the grid holding status `s`. -/
def statusCount (b : Board) (s : cellStatus) : Nat :=
  (b.Rows.map (fun row => (row.filter (fun x => x == s)).length)).sum

/-- Number of `Available` cells in the playable area (rows 1..8,
columns 1..8) of the grid. -/
def availPlayable (b : Board) : Nat :=
  (((List.range 8).map (fun k => k + 1)).map (fun i =>
    (((List.range 8).map (fun k => k + 1)).filter
      (fun j => cellAt b i j == some cellStatus.Available)).length)).sum

/-- The column-letter header label `Render` prints for playable column
`c` (it prints `columnMap[j-1]` at header position `j`). -/
def colLabel (c : Nat) : Option Char :=
  columnMap (c - 1)

/-- The row-number header label `Render` prints for row `i`
(`strconv.Itoa(i)`). -/
def rowLabel (i : Nat) : String :=
  toString i

/-- The input token spelled by the rendered labels of position
`(r, c)`: column letter then row number. -/
def labelToken (r c : Nat) : Option String :=
  (colLabel c).map (fun L => String.mk [L] ++ rowLabel r)

/-- The 64 tokens "A1" .. "H8" of the playable 8×8 area. -/
def playableTokens : List String :=
  (((List.range 8).map (fun k => k + 1)).map (fun r =>
    ((List.range 8).map (fun k => k + 1)).map (fun c =>
      String.mk [Char.ofNat (64 + c)] ++ toString r))).flatten

/-- Parse a token and re-render the parsed position's labels. -/
def parseThenLabel (t : String) : Option String :=
  match validateInput newBoard t with
  | Except.ok (r, c) => labelToken r c
  | Except.error _ => none

/-- A second concrete board (the position after "A1"), used to
exhibit that validation does not depend on the receiver board. -/
def boardC1 : Board :=
  (run newBoard ["A1"]).getD newBoard

/-- Board after "A1", "B2" (player one to move again). -/
def bC2pre : Board :=
  (run newBoard ["A1", "B2"]).getD newBoard

/-- Board after "A1", "B2", "B1". -/
def bC2w : Board :=
  (run newBoard ["A1", "B2", "B1"]).getD newBoard

/-- Board after "A1", "B2", "B1", "C2": cell (1,1) has just been
blocked by player one's move away from it. -/
def bC2cex1 : Board :=
  (run newBoard ["A1", "B2", "B1", "C2"]).getD newBoard

/-- Board after "A1", "B2", "B1", "C2", "A1": player one has moved
back onto the blocked cell (1,1). -/
def bC2cex2 : Board :=
  (run newBoard ["A1", "B2", "B1", "C2", "A1"]).getD newBoard

/-- Board after "A1", "B2" (for the C3 witness). -/
def bC3pre : Board :=
  (run newBoard ["A1", "B2"]).getD newBoard

/-- Board after "A1", "B2", "B1" (for the C3 witness). -/
def bC3w : Board :=
  (run newBoard ["A1", "B2", "B1"]).getD newBoard

/-- Board after "A1", "B2" (for the C3 counterexample). -/
def bC3pre2 : Board :=
  (run newBoard ["A1", "B2"]).getD newBoard

/-- Board after "A1", "B2", "A1": player one's second move lands on
its own current cell. -/
def bC3cex : Board :=
  (run newBoard ["A1", "B2", "A1"]).getD newBoard

/-- Board after a single "A1" (for the C4 witness). -/
def bC4w : Board :=
  (run newBoard ["A1"]).getD newBoard

/-- A full game: the two players alternately claim all 64 playable
cells (player one fills rows 1..4, player two rows 5..8). -/
def fullGameInputs : List String :=
  ["A1", "A5", "B1", "B5", "C1", "C5", "D1", "D5",
   "E1", "E5", "F1", "F5", "G1", "G5", "H1", "H5",
   "A2", "A6", "B2", "B6", "C2", "C6", "D2", "D6",
   "E2", "E6", "F2", "F6", "G2", "G6", "H2", "H6",
   "A3", "A7", "B3", "B7", "C3", "C7", "D3", "D7",
   "E3", "E7", "F3", "F7", "G3", "G7", "H3", "H7",
   "A4", "A8", "B4", "B8", "C4", "C8", "D4", "D8",
   "E4", "E8", "F4", "F8", "G4", "G8", "H4", "H8"]

/-- The board after the full 64-move game: every playable cell is
occupied or blocked. -/
def bC4full : Board :=
  (run newBoard fullGameInputs).getD newBoard

/-- The board after player one moves "A1" on the exhausted board. -/
def bC4after : Board :=
  (run newBoard (fullGameInputs ++ ["A1"])).getD newBoard

/-- Board relevant to turn alternation: two applied moves with a
rejected attempt in between. -/
def bC5w : Board :=
  (run newBoard ["A1", "Z1", "B2"]).getD newBoard

/-- Board after "A1", "B2" (for the C9 witness). -/
def bC9w : Board :=
  (run newBoard ["A1", "B2"]).getD newBoard

end Capture

namespace Capture

theorem getElem?_some_lt (l : List α) (i : Nat) (a : α) (h : l[i]? = some a) :
    i < l.length := by
  by_contra hc
  rw [List.getElem?_eq_none (by omega)] at h
  exact absurd h (by simp)

theorem getElem?_some_mem (l : List α) (i : Nat) (a : α) (h : l[i]? = some a) : a ∈ l := by
  have hlt := getElem?_some_lt l i a h
  rw [List.getElem?_eq_getElem hlt] at h
  exact (Option.some.inj h) ▸ List.getElem_mem hlt

theorem setCell_some (rows : List (List cellStatus)) (r c : Nat) (s : cellStatus)
    (rows' : List (List cellStatus)) (h : setCell rows r c s = some rows') :
    ∃ row, rows[r]? = some row ∧ c < row.length ∧ rows' = rows.set r (row.set c s) := by
  unfold setCell at h
  split at h
  · exact absurd h (by simp)
  · next row hr =>
    split at h
    · next hc => exact ⟨row, hr, hc, (Option.some.inj h).symm⟩
    · exact absurd h (by simp)

theorem setCell_eq_some (rows : List (List cellStatus)) (r c : Nat) (s : cellStatus)
    (row : List cellStatus) (hr : rows[r]? = some row) (hc : c < row.length) :
    setCell rows r c s = some (rows.set r (row.set c s)) := by
  unfold setCell
  rw [hr]
  exact if_pos hc

theorem setCell_length (rows rows' : List (List cellStatus)) (r c : Nat) (s : cellStatus)
    (h : setCell rows r c s = some rows') : rows'.length = rows.length := by
  obtain ⟨row, _, _, rfl⟩ := setCell_some rows r c s rows' h
  exact List.length_set ..

theorem setCell_rowLengths (rows rows' : List (List cellStatus)) (r c : Nat) (s : cellStatus)
    (h : setCell rows r c s = some rows')
    (hall : ∀ row ∈ rows, row.length = gridSize) :
    ∀ row ∈ rows', row.length = gridSize := by
  obtain ⟨row, hr, _, rfl⟩ := setCell_some rows r c s rows' h
  intro q hq
  rcases List.mem_or_eq_of_mem_set hq with hmem | rfl
  · exact hall q hmem
  · rw [List.length_set]
    have : r < rows.length := getElem?_some_lt rows r row hr
    exact hall row (by
      have := List.getElem?_eq_getElem this
      rw [this] at hr
      exact (Option.some.inj hr) ▸ List.getElem_mem ..)

theorem getCell_setCell (rows rows' : List (List cellStatus)) (r c : Nat) (s : cellStatus)
    (h : setCell rows r c s = some rows') (i j : Nat) :
    getCell rows' i j = if i = r ∧ j = c then some s else getCell rows i j := by
  obtain ⟨row, hr, hc, rfl⟩ := setCell_some rows r c s rows' h
  have hrlen : r < rows.length := getElem?_some_lt rows r row hr
  by_cases hi : i = r
  · subst hi
    unfold getCell
    rw [List.getElem?_set_self hrlen, hr]
    by_cases hj : j = c
    · subst hj
      rw [if_pos ⟨rfl, rfl⟩]
      simp [List.getElem?_set_self hc]
    · rw [if_neg (fun hand => hj hand.2)]
      simp [List.getElem?_set_ne (fun hcj => hj hcj.symm)]
  · unfold getCell
    rw [List.getElem?_set_ne (fun hri => hi hri.symm), if_neg (fun hand => hi hand.1)]

theorem columnPairs_eq :
    columnPairs = [('A', 1), ('B', 2), ('C', 3), ('D', 4), ('E', 5),
      ('F', 6), ('G', 7), ('H', 8), ('I', 9)] := by
  decide

theorem columnMapInverted_bounds (L : Char) (c : Nat)
    (h : columnMapInverted L = some c) : 1 ≤ c ∧ c ≤ gridSize := by
  unfold columnMapInverted at h
  cases hf : columnPairs.find? (fun p => p.fst == L) with
  | none => rw [hf] at h; exact absurd h (by simp)
  | some p =>
    rw [hf] at h
    have hpc : p.snd = c := by simpa using h
    have hmem := List.mem_of_find?_eq_some hf
    rw [columnPairs_eq] at hmem
    simp only [List.mem_cons, List.mem_singleton, List.not_mem_nil] at hmem
    rcases hmem with rfl | rfl | rfl | rfl | rfl | rfl | rfl | rfl | rfl | hfalse
    all_goals first
      | (rw [← hpc]; exact ⟨by decide, by decide⟩)
      | exact absurd hfalse (by simp)

theorem validateInput_ok_iff (b : Board) (t : String) (r c : Nat) :
    validateInput b t = Except.ok (r, c) ↔
      ∃ L d, t.data = [L, d] ∧ atoiDigit d = some r ∧ 1 ≤ r ∧ r ≤ gridSize ∧
        columnMapInverted L = some c := by
  unfold validateInput
  constructor
  · intro h
    split at h
    · next L d ht =>
      split at h
      · exact absurd h (by simp)
      · next row hd =>
        split at h
        · exact absurd h (by simp)
        · next hrow =>
          split at h
          · exact absurd h (by simp)
          · next col hcol =>
            have hp : row = r ∧ col = c := by
              have := Except.ok.inj h
              exact ⟨congrArg Prod.fst this, congrArg Prod.snd this⟩
            obtain ⟨rfl, rfl⟩ := hp
            exact ⟨L, d, ht, hd, by omega, by omega, hcol⟩
    · exact absurd h (by simp)
  · rintro ⟨L, d, ht, hd, hr1, hr2, hcol⟩
    rw [show t.toList = [L, d] from ht]
    simp only [hd, hcol]
    rw [if_neg (by omega)]

theorem validateInput_ok_bounds (b : Board) (t : String) (r c : Nat)
    (h : validateInput b t = Except.ok (r, c)) :
    1 ≤ r ∧ r ≤ gridSize ∧ 1 ≤ c ∧ c ≤ gridSize := by
  obtain ⟨L, d, _, _, hr1, hr2, hcol⟩ := (validateInput_ok_iff b t r c).1 h
  obtain ⟨hc1, hc2⟩ := columnMapInverted_bounds L c hcol
  exact ⟨hr1, hr2, hc1, hc2⟩

theorem blockThenOccupy_getCell (rows rows1 rows2 : List (List cellStatus))
    (pr pc r c : Nat) (s : cellStatus)
    (hblk : (if 0 < pr then setCell rows pr pc cellStatus.Block else some rows) = some rows1)
    (hocc : setCell rows1 r c s = some rows2) (i j : Nat) :
    getCell rows2 i j =
      if i = r ∧ j = c then some s
      else if 0 < pr ∧ i = pr ∧ j = pc then some cellStatus.Block
      else getCell rows i j := by
  rw [getCell_setCell rows1 rows2 r c s hocc i j]
  by_cases hpr : 0 < pr
  · rw [if_pos hpr] at hblk
    by_cases hij : i = r ∧ j = c
    · rw [if_pos hij, if_pos hij]
    · rw [if_neg hij, if_neg hij,
        getCell_setCell rows rows1 pr pc cellStatus.Block hblk i j]
      by_cases hpp : i = pr ∧ j = pc
      · rw [if_pos hpp, if_pos ⟨hpr, hpp.1, hpp.2⟩]
      · rw [if_neg hpp, if_neg (fun hand => hpp ⟨hand.2.1, hand.2.2⟩)]
  · rw [if_neg hpr] at hblk
    obtain rfl : rows = rows1 := Option.some.inj hblk
    by_cases hij : i = r ∧ j = c
    · rw [if_pos hij, if_pos hij]
    · rw [if_neg hij, if_neg hij, if_neg (fun hand => hpr hand.1)]

theorem move_spec (b : Board) (r c : Nat) (b1 : Board) (h : move b r c = some b1) :
    b1.playerOneTurn = b.playerOneTurn ∧
    (b.playerOneTurn = true →
        b1.playerOneRow = r ∧ b1.playerOneCol = c ∧
        b1.playerTwoRow = b.playerTwoRow ∧ b1.playerTwoCol = b.playerTwoCol) ∧
    (b.playerOneTurn = false →
        b1.playerTwoRow = r ∧ b1.playerTwoCol = c ∧
        b1.playerOneRow = b.playerOneRow ∧ b1.playerOneCol = b.playerOneCol) ∧
    (∀ i j, cellAt b1 i j =
      if i = r ∧ j = c then some (moverStatus b)
      else if 0 < (moverPrior b).1 ∧ i = (moverPrior b).1 ∧ j = (moverPrior b).2 then
        some cellStatus.Block
      else cellAt b i j) ∧
    b1.Rows.length = b.Rows.length ∧
    ((∀ row ∈ b.Rows, row.length = gridSize) → ∀ row ∈ b1.Rows, row.length = gridSize) ∧
    r < b.Rows.length ∧
    ((∀ row ∈ b.Rows, row.length = gridSize) → c < gridSize) := by
  by_cases hturn : b.playerOneTurn
  · rw [move, if_pos hturn] at h
    cases hblk : (if 0 < b.playerOneRow then
        setCell b.Rows b.playerOneRow b.playerOneCol cellStatus.Block else some b.Rows) with
    | none => rw [hblk] at h; exact absurd h (by simp)
    | some rows1 =>
      rw [hblk] at h
      simp only [Option.some_bind] at h
      cases hocc : setCell rows1 r c cellStatus.Player1Occupied with
      | none => rw [hocc] at h; exact absurd h (by simp)
      | some rows2 =>
        rw [hocc] at h
        obtain rfl : ({ b with Rows := rows2, playerOneRow := r, playerOneCol := c } : Board) = b1 :=
          Option.some.inj (by simpa using h)
        have hlen1 : rows1.length = b.Rows.length := by
          by_cases hpr : 0 < b.playerOneRow
          · rw [if_pos hpr] at hblk
            exact setCell_length _ _ _ _ _ hblk
          · rw [if_neg hpr] at hblk
            rw [Option.some.inj hblk]
        have hrl1 : (∀ row ∈ b.Rows, row.length = gridSize) →
            ∀ row ∈ rows1, row.length = gridSize := by
          intro hall
          by_cases hpr : 0 < b.playerOneRow
          · rw [if_pos hpr] at hblk
            exact setCell_rowLengths _ _ _ _ _ hblk hall
          · rw [if_neg hpr] at hblk
            rw [← Option.some.inj hblk]
            exact hall
        obtain ⟨qrow, hqrow, hqc, _⟩ := setCell_some rows1 r c cellStatus.Player1Occupied rows2 hocc
        refine ⟨rfl, fun _ => ⟨rfl, rfl, rfl, rfl⟩, fun hf => absurd hturn (by simp [hf]),
          ?_, ?_, ?_, ?_, ?_⟩
        · intro i j
          have := blockThenOccupy_getCell b.Rows rows1 rows2 b.playerOneRow b.playerOneCol
            r c cellStatus.Player1Occupied hblk hocc i j
          simpa [cellAt, moverStatus, moverPrior, hturn] using this
        · simpa using (setCell_length rows1 rows2 r c _ hocc).trans hlen1
        · intro hall
          simpa using setCell_rowLengths rows1 rows2 r c _ hocc (hrl1 hall)
        · have := getElem?_some_lt rows1 r qrow hqrow
          omega
        · intro hall
          have hmem := getElem?_some_mem rows1 r qrow hqrow
          have := hrl1 hall qrow hmem
          omega
  · rw [move, if_neg hturn] at h
    cases hblk : (if 0 < b.playerTwoRow then
        setCell b.Rows b.playerTwoRow b.playerTwoCol cellStatus.Block else some b.Rows) with
    | none => rw [hblk] at h; exact absurd h (by simp)
    | some rows1 =>
      rw [hblk] at h
      simp only [Option.some_bind] at h
      cases hocc : setCell rows1 r c cellStatus.Player2Occupied with
      | none => rw [hocc] at h; exact absurd h (by simp)
      | some rows2 =>
        rw [hocc] at h
        obtain rfl : ({ b with Rows := rows2, playerTwoRow := r, playerTwoCol := c } : Board) = b1 :=
          Option.some.inj (by simpa using h)
        have hlen1 : rows1.length = b.Rows.length := by
          by_cases hpr : 0 < b.playerTwoRow
          · rw [if_pos hpr] at hblk
            exact setCell_length _ _ _ _ _ hblk
          · rw [if_neg hpr] at hblk
            rw [Option.some.inj hblk]
        have hrl1 : (∀ row ∈ b.Rows, row.length = gridSize) →
            ∀ row ∈ rows1, row.length = gridSize := by
          intro hall
          by_cases hpr : 0 < b.playerTwoRow
          · rw [if_pos hpr] at hblk
            exact setCell_rowLengths _ _ _ _ _ hblk hall
          · rw [if_neg hpr] at hblk
            rw [← Option.some.inj hblk]
            exact hall
        obtain ⟨qrow, hqrow, hqc, _⟩ := setCell_some rows1 r c cellStatus.Player2Occupied rows2 hocc
        refine ⟨rfl, fun ht => absurd ht (by simp [hturn]), fun _ => ⟨rfl, rfl, rfl, rfl⟩,
          ?_, ?_, ?_, ?_, ?_⟩
        · intro i j
          have := blockThenOccupy_getCell b.Rows rows1 rows2 b.playerTwoRow b.playerTwoCol
            r c cellStatus.Player2Occupied hblk hocc i j
          simpa [cellAt, moverStatus, moverPrior, hturn] using this
        · simpa using (setCell_length rows1 rows2 r c _ hocc).trans hlen1
        · intro hall
          simpa using setCell_rowLengths rows1 rows2 r c _ hocc (hrl1 hall)
        · have := getElem?_some_lt rows1 r qrow hqrow
          omega
        · intro hall
          have hmem := getElem?_some_mem rows1 r qrow hqrow
          have := hrl1 hall qrow hmem
          omega

theorem Turn_ok_spec (b : Board) (input : String) (b' : Board)
    (h : Turn b input = turnOutcome.ok b') :
    ∃ r c, validateInput b (trimSpace input) = Except.ok (r, c) ∧
      ∃ b1, move b r c = some b1 ∧ b' = { b1 with playerOneTurn := !b1.playerOneTurn } := by
  unfold Turn at h
  split at h
  · exact absurd h (by simp)
  · next r c hv =>
    split at h
    · exact absurd h (by simp)
    · next b1 hm =>
      exact ⟨r, c, hv, b1, hm, (turnOutcome.ok.inj h).symm⟩

theorem cellAt_newBoard (i j : Nat) (s : cellStatus)
    (h : cellAt newBoard i j = some s) : s = cellStatus.Available := by
  unfold cellAt getCell newBoard at h
  simp only at h
  cases hr : (List.replicate gridSize newRow)[i]? with
  | none => rw [hr] at h; exact absurd h (by simp)
  | some row =>
    rw [hr] at h
    have hrow : row = newRow := by
      rw [List.getElem?_replicate] at hr
      by_cases hi : i < gridSize
      · rw [if_pos hi] at hr
        exact (Option.some.inj hr).symm
      · rw [if_neg hi] at hr
        exact absurd hr (by simp)
    subst hrow
    simp only [Option.some_bind] at h
    unfold newRow at h
    rw [List.getElem?_replicate] at h
    by_cases hj : j < gridSize
    · rw [if_pos hj] at h
      exact (Option.some.inj h).symm
    · rw [if_neg hj] at h
      exact absurd h (by simp)

/-- The state invariant maintained by the game loop: the grid stays
9×9; the header row 0 and header column 0 stay `Available` (no
validated move can write there); each player's occupancy marker appears
only at that player's recorded coordinates; recorded coordinates stay
inside the array; and a recorded position with a positive row also has
a positive column. -/
def Inv (b : Board) : Prop :=
  b.Rows.length = gridSize ∧
  (∀ row ∈ b.Rows, row.length = gridSize) ∧
  (∀ j, j < gridSize → cellAt b 0 j = some cellStatus.Available) ∧
  (∀ i, i < gridSize → cellAt b i 0 = some cellStatus.Available) ∧
  (∀ i j, cellAt b i j = some cellStatus.Player1Occupied →
    i = b.playerOneRow ∧ j = b.playerOneCol) ∧
  (∀ i j, cellAt b i j = some cellStatus.Player2Occupied →
    i = b.playerTwoRow ∧ j = b.playerTwoCol) ∧
  b.playerOneRow < gridSize ∧ b.playerOneCol < gridSize ∧
  b.playerTwoRow < gridSize ∧ b.playerTwoCol < gridSize ∧
  (0 < b.playerOneRow → 0 < b.playerOneCol) ∧
  (0 < b.playerTwoRow → 0 < b.playerTwoCol)

theorem Inv_newBoard : Inv newBoard := by
  refine ⟨by decide, by decide, by decide, by decide, ?_, ?_,
    by decide, by decide, by decide, by decide, by decide, by decide⟩
  · intro i j h
    exact absurd (cellAt_newBoard i j _ h) (by decide)
  · intro i j h
    exact absurd (cellAt_newBoard i j _ h) (by decide)

theorem Inv_Turn (b : Board) (input : String) (b' : Board)
    (hInv : Inv b) (h : Turn b input = turnOutcome.ok b') : Inv b' := by
  obtain ⟨r, c, hv, b1, hm, rfl⟩ := Turn_ok_spec b input b' h
  obtain ⟨hr1, hr9, hc1, hc9⟩ := validateInput_ok_bounds b _ r c hv
  obtain ⟨hteq, hp1, hp2, hcells, hlen, hrows, hrlt, hclt⟩ := move_spec b r c b1 hm
  obtain ⟨ilen, irows, irow0, icol0, ip1, ip2, ib1r, ib1c, ib2r, ib2c, ic1, ic2⟩ := hInv
  have hrlt9 : r < gridSize := by rw [ilen] at hrlt; exact hrlt
  have hclt9 : c < gridSize := hclt irows
  have hprior12 : 0 < (moverPrior b).1 → 0 < (moverPrior b).2 := by
    by_cases ht : b.playerOneTurn = true
    · simpa [moverPrior, ht] using ic1
    · simp only [moverPrior, ht, if_false]
      exact ic2
  refine ⟨?_, ?_, ?_, ?_, ?_, ?_, ?_, ?_, ?_, ?_, ?_, ?_⟩
  · show b1.Rows.length = gridSize
    rw [hlen]; exact ilen
  · show ∀ row ∈ b1.Rows, row.length = gridSize
    exact hrows irows
  · intro j hj
    show cellAt b1 0 j = some cellStatus.Available
    have hij := hcells 0 j
    rw [if_neg (by rintro ⟨h0, _⟩; omega : ¬(0 = r ∧ j = c)),
      if_neg (by rintro ⟨hpos, h0, _⟩; omega :
        ¬(0 < (moverPrior b).1 ∧ 0 = (moverPrior b).1 ∧ j = (moverPrior b).2))] at hij
    rw [hij]
    exact irow0 j hj
  · intro i hi
    show cellAt b1 i 0 = some cellStatus.Available
    have hij := hcells i 0
    rw [if_neg (by rintro ⟨_, h0⟩; omega : ¬(i = r ∧ 0 = c)),
      if_neg (by
        rintro ⟨hpos, _, h0⟩
        have := hprior12 hpos
        omega :
        ¬(0 < (moverPrior b).1 ∧ i = (moverPrior b).1 ∧ 0 = (moverPrior b).2))] at hij
    rw [hij]
    exact icol0 i hi
  · intro i j hcell
    have hcell1 : cellAt b1 i j = some cellStatus.Player1Occupied := hcell
    show i = b1.playerOneRow ∧ j = b1.playerOneCol
    have hij := hcells i j
    by_cases ht : b.playerOneTurn = true
    · obtain ⟨e1, e2, _, _⟩ := hp1 ht
      rw [e1, e2]
      by_cases h1 : i = r ∧ j = c
      · exact h1
      · rw [if_neg h1] at hij
        by_cases h2 : 0 < (moverPrior b).1 ∧ i = (moverPrior b).1 ∧ j = (moverPrior b).2
        · rw [if_pos h2, hcell1] at hij
          exact absurd (Option.some.inj hij) (by decide)
        · rw [if_neg h2] at hij
          obtain ⟨g1, g2⟩ := ip1 i j (by rw [← hij]; exact hcell1)
          by_cases hpr : 0 < b.playerOneRow
          · exact absurd ⟨by simpa [moverPrior, ht] using hpr,
              by simp [moverPrior, ht, ← g1], by simp [moverPrior, ht, ← g2]⟩ h2
          · have hz : i = 0 := by omega
            have hAv := irow0 j (by rw [g2]; exact ib1c)
            rw [hz] at hij hcell1
            rw [hcell1, hAv] at hij
            exact absurd (Option.some.inj hij) (by decide)
    · have hf : b.playerOneTurn = false := by simpa using ht
      obtain ⟨_, _, e3, e4⟩ := hp2 hf
      rw [e3, e4]
      by_cases h1 : i = r ∧ j = c
      · rw [if_pos h1, hcell1] at hij
        have : moverStatus b = cellStatus.Player1Occupied := (Option.some.inj hij).symm
        rw [moverStatus, hf] at this
        exact absurd this (by decide)
      · rw [if_neg h1] at hij
        by_cases h2 : 0 < (moverPrior b).1 ∧ i = (moverPrior b).1 ∧ j = (moverPrior b).2
        · rw [if_pos h2, hcell1] at hij
          exact absurd (Option.some.inj hij) (by decide)
        · rw [if_neg h2] at hij
          exact ip1 i j (by rw [← hij]; exact hcell1)
  · intro i j hcell
    have hcell1 : cellAt b1 i j = some cellStatus.Player2Occupied := hcell
    show i = b1.playerTwoRow ∧ j = b1.playerTwoCol
    have hij := hcells i j
    by_cases ht : b.playerOneTurn = true
    · obtain ⟨_, _, e3, e4⟩ := hp1 ht
      rw [e3, e4]
      by_cases h1 : i = r ∧ j = c
      · rw [if_pos h1, hcell1] at hij
        have : moverStatus b = cellStatus.Player2Occupied := (Option.some.inj hij).symm
        rw [moverStatus, ht] at this
        exact absurd this (by decide)
      · rw [if_neg h1] at hij
        by_cases h2 : 0 < (moverPrior b).1 ∧ i = (moverPrior b).1 ∧ j = (moverPrior b).2
        · rw [if_pos h2, hcell1] at hij
          exact absurd (Option.some.inj hij) (by decide)
        · rw [if_neg h2] at hij
          exact ip2 i j (by rw [← hij]; exact hcell1)
    · have hf : b.playerOneTurn = false := by simpa using ht
      obtain ⟨e1, e2, _, _⟩ := hp2 hf
      rw [e1, e2]
      by_cases h1 : i = r ∧ j = c
      · exact h1
      · rw [if_neg h1] at hij
        by_cases h2 : 0 < (moverPrior b).1 ∧ i = (moverPrior b).1 ∧ j = (moverPrior b).2
        · rw [if_pos h2, hcell1] at hij
          exact absurd (Option.some.inj hij) (by decide)
        · rw [if_neg h2] at hij
          obtain ⟨g1, g2⟩ := ip2 i j (by rw [← hij]; exact hcell1)
          by_cases hpr : 0 < b.playerTwoRow
          · exact absurd ⟨by simpa [moverPrior, hf] using hpr,
              by simp [moverPrior, hf, ← g1], by simp [moverPrior, hf, ← g2]⟩ h2
          · have hz : i = 0 := by omega
            have hAv := irow0 j (by rw [g2]; exact ib2c)
            rw [hz] at hij hcell1
            rw [hcell1, hAv] at hij
            exact absurd (Option.some.inj hij) (by decide)
  · show b1.playerOneRow < gridSize
    by_cases ht : b.playerOneTurn = true
    · rw [(hp1 ht).1]; exact hrlt9
    · rw [(hp2 (by simpa using ht)).2.2.1]; exact ib1r
  · show b1.playerOneCol < gridSize
    by_cases ht : b.playerOneTurn = true
    · rw [(hp1 ht).2.1]; exact hclt9
    · rw [(hp2 (by simpa using ht)).2.2.2]; exact ib1c
  · show b1.playerTwoRow < gridSize
    by_cases ht : b.playerOneTurn = true
    · rw [(hp1 ht).2.2.1]; exact ib2r
    · rw [(hp2 (by simpa using ht)).1]; exact hrlt9
  · show b1.playerTwoCol < gridSize
    by_cases ht : b.playerOneTurn = true
    · rw [(hp1 ht).2.2.2]; exact ib2c
    · rw [(hp2 (by simpa using ht)).2.1]; exact hclt9
  · show 0 < b1.playerOneRow → 0 < b1.playerOneCol
    by_cases ht : b.playerOneTurn = true
    · rw [(hp1 ht).1, (hp1 ht).2.1]; intro; omega
    · rw [(hp2 (by simpa using ht)).2.2.1, (hp2 (by simpa using ht)).2.2.2]; exact ic1
  · show 0 < b1.playerTwoRow → 0 < b1.playerTwoCol
    by_cases ht : b.playerOneTurn = true
    · rw [(hp1 ht).2.2.1, (hp1 ht).2.2.2]; exact ic2
    · rw [(hp2 (by simpa using ht)).1, (hp2 (by simpa using ht)).2.1]; intro; omega

theorem run_Inv (inputs : List String) (b0 b : Board) (hInv : Inv b0)
    (h : run b0 inputs = some b) : Inv b := by
  induction inputs generalizing b0 with
  | nil => rw [run] at h; exact (Option.some.inj h) ▸ hInv
  | cons i rest ih =>
    rw [run] at h
    cases hT : Turn b0 i with
    | ok b1 => rw [hT] at h; exact ih b1 (Inv_Turn b0 i b1 hInv hT) h
    | rejected e => rw [hT] at h; exact ih b0 hInv h
    | crash => rw [hT] at h; exact absurd h (by simp)

theorem Reachable_Inv (b : Board) (h : Reachable b) : Inv b := by
  obtain ⟨inputs, hrun⟩ := h
  exact run_Inv inputs newBoard b Inv_newBoard hrun

theorem Turn_ok_flips (b : Board) (input : String) (b' : Board)
    (h : Turn b input = turnOutcome.ok b') : b'.playerOneTurn = !b.playerOneTurn := by
  obtain ⟨r, c, _, bm, hm, rfl⟩ := Turn_ok_spec b input b' h
  show (!bm.playerOneTurn) = !b.playerOneTurn
  rw [(move_spec b r c bm hm).1]

theorem run_append (l1 l2 : List String) (b : Board) :
    run b (l1 ++ l2) = (run b l1).bind (fun b2 => run b2 l2) := by
  induction l1 generalizing b with
  | nil => rw [List.nil_append, run, Option.some_bind]
  | cons i rest ih =>
    rw [List.cons_append, run, run]
    cases Turn b i with
    | ok b1 => exact ih b1
    | rejected e => exact ih b
    | crash => rw [Option.none_bind]

theorem Reachable_newBoard : Reachable newBoard :=
  ⟨[], rfl⟩

theorem Reachable_step (b : Board) (input : String) (b' : Board)
    (hb : Reachable b) (h : Turn b input = turnOutcome.ok b') : Reachable b' := by
  obtain ⟨l, hl⟩ := hb
  refine ⟨l ++ [input], ?_⟩
  rw [run_append, hl, Option.some_bind, run, h]
  rfl

theorem run_parity (inputs : List String) (b0 b : Board)
    (h : run b0 inputs = some b) :
    b.playerOneTurn =
      (if countApplied b0 inputs % 2 = 0 then b0.playerOneTurn else !b0.playerOneTurn) := by
  induction inputs generalizing b0 with
  | nil =>
    rw [run] at h
    obtain rfl : b0 = b := Option.some.inj h
    simp [countApplied]
  | cons i rest ih =>
    rw [run] at h
    cases hT : Turn b0 i with
    | ok b1 =>
      rw [hT] at h
      have hcnt : countApplied b0 (i :: rest) = 1 + countApplied b1 rest := by
        rw [countApplied, hT]
      rw [hcnt, ih b1 h, Turn_ok_flips b0 i b1 hT]
      rcases Nat.mod_two_eq_zero_or_one (countApplied b1 rest) with hpar | hpar
      · rw [if_pos hpar, if_neg (by omega)]
      · rw [if_neg (by omega), if_pos (by omega), Bool.not_not]
    | rejected e =>
      rw [hT] at h
      have hcnt : countApplied b0 (i :: rest) = countApplied b0 rest := by
        rw [countApplied, hT]
      rw [hcnt]
      exact ih b0 h
    | crash =>
      rw [hT] at h
      exact absurd h (by simp)

theorem setCell_some_of_lt (rows : List (List cellStatus))
    (hlen : rows.length = gridSize)
    (hrows : ∀ row ∈ rows, row.length = gridSize)
    (r c : Nat) (hr : r < gridSize) (hc : c < gridSize) (s : cellStatus) :
    ∃ rows2, setCell rows r c s = some rows2 := by
  have hr2 : r < rows.length := by omega
  have hget : rows[r]? = some (rows.get ⟨r, hr2⟩) := List.getElem?_eq_getElem hr2
  have hlen2 : (rows.get ⟨r, hr2⟩).length = gridSize :=
    hrows _ (List.getElem_mem hr2)
  exact ⟨_, setCell_eq_some rows r c s _ hget (by omega)⟩

theorem move_isSome (b : Board) (hlen : b.Rows.length = gridSize)
    (hrows : ∀ row ∈ b.Rows, row.length = gridSize)
    (hb1r : b.playerOneRow < gridSize) (hb1c : b.playerOneCol < gridSize)
    (hb2r : b.playerTwoRow < gridSize) (hb2c : b.playerTwoCol < gridSize)
    (r c : Nat) (hr : r < gridSize) (hc : c < gridSize) :
    ∃ b1, move b r c = some b1 := by
  by_cases hturn : b.playerOneTurn = true
  · have hblk : ∃ rows1,
        (if b.playerOneRow > 0 then
          setCell b.Rows b.playerOneRow b.playerOneCol cellStatus.Block
        else some b.Rows) = some rows1 := by
      by_cases hpr : b.playerOneRow > 0
      · rw [if_pos hpr]
        exact setCell_some_of_lt b.Rows hlen hrows _ _ hb1r hb1c _
      · rw [if_neg hpr]
        exact ⟨b.Rows, rfl⟩
    obtain ⟨rows1, hblk⟩ := hblk
    have hlen1 : rows1.length = gridSize := by
      by_cases hpr : b.playerOneRow > 0
      · rw [if_pos hpr] at hblk
        rw [setCell_length _ _ _ _ _ hblk]
        exact hlen
      · rw [if_neg hpr] at hblk
        rw [← Option.some.inj hblk]
        exact hlen
    have hrows1 : ∀ row ∈ rows1, row.length = gridSize := by
      by_cases hpr : b.playerOneRow > 0
      · rw [if_pos hpr] at hblk
        exact setCell_rowLengths _ _ _ _ _ hblk hrows
      · rw [if_neg hpr] at hblk
        rw [← Option.some.inj hblk]
        exact hrows
    obtain ⟨rows2, hocc⟩ := setCell_some_of_lt rows1 hlen1 hrows1 r c hr hc
      cellStatus.Player1Occupied
    refine ⟨{ b with Rows := rows2, playerOneRow := r, playerOneCol := c }, ?_⟩
    rw [move, if_pos hturn, hblk, Option.some_bind, hocc]
    rfl
  · have hf : b.playerOneTurn = false := by simpa using hturn
    have hblk : ∃ rows1,
        (if b.playerTwoRow > 0 then
          setCell b.Rows b.playerTwoRow b.playerTwoCol cellStatus.Block
        else some b.Rows) = some rows1 := by
      by_cases hpr : b.playerTwoRow > 0
      · rw [if_pos hpr]
        exact setCell_some_of_lt b.Rows hlen hrows _ _ hb2r hb2c _
      · rw [if_neg hpr]
        exact ⟨b.Rows, rfl⟩
    obtain ⟨rows1, hblk⟩ := hblk
    have hlen1 : rows1.length = gridSize := by
      by_cases hpr : b.playerTwoRow > 0
      · rw [if_pos hpr] at hblk
        rw [setCell_length _ _ _ _ _ hblk]
        exact hlen
      · rw [if_neg hpr] at hblk
        rw [← Option.some.inj hblk]
        exact hlen
    have hrows1 : ∀ row ∈ rows1, row.length = gridSize := by
      by_cases hpr : b.playerTwoRow > 0
      · rw [if_pos hpr] at hblk
        exact setCell_rowLengths _ _ _ _ _ hblk hrows
      · rw [if_neg hpr] at hblk
        rw [← Option.some.inj hblk]
        exact hrows
    obtain ⟨rows2, hocc⟩ := setCell_some_of_lt rows1 hlen1 hrows1 r c hr hc
      cellStatus.Player2Occupied
    refine ⟨{ b with Rows := rows2, playerTwoRow := r, playerTwoCol := c }, ?_⟩
    rw [move, if_neg (by simp [hf]), hblk, Option.some_bind, hocc]
    rfl

theorem Turn_A1_ok_of_Inv (b : Board) (hInv : Inv b) :
    turnIsOk (Turn b "A1") = true := by
  obtain ⟨ilen, irows, _, _, _, _, ib1r, ib1c, ib2r, ib2c, _, _⟩ := hInv
  obtain ⟨b1, hm⟩ := move_isSome b ilen irows ib1r ib1c ib2r ib2c 1 1
    (by decide) (by decide)
  have hv : validateInput b (trimSpace "A1") = Except.ok (1, 1) := rfl
  have hT : Turn b "A1" =
      turnOutcome.ok { b1 with playerOneTurn := !b1.playerOneTurn } := by
    unfold Turn
    rw [hv]
    show (match move b 1 1 with
      | none => turnOutcome.crash
      | some bm => turnOutcome.ok { bm with playerOneTurn := !bm.playerOneTurn }) =
      turnOutcome.ok { b1 with playerOneTurn := !b1.playerOneTurn }
    rw [hm]
  rw [hT]
  rfl

end Capture

namespace Capture

/-- C1 (corrected): move validation never consults the board or the
cells: `validateInput` gives the same answer on every receiver board,
and returns Ok exactly when the token has exactly two characters, the
second a digit spelling a row in 1..9, the first a letter A..I
(column in 1..9).  It does not restrict to the 8×8 playable bounds and
performs no Blocked/occupied-cell check (the original claim fails, see
`C1_counterexample`). -/
theorem C1_validate_characterization (b b2 : Board) (t : String) (r c : Nat) :
    validateInput b t = validateInput b2 t ∧
    (validateInput b t = Except.ok (r, c) ↔
      (t.data.length = 2 ∧ atoiDigit (t.data.getD 1 'x') = some r ∧
        1 ≤ r ∧ r ≤ gridSize ∧ columnMapInverted (t.data.getD 0 'x') = some c)) := by
  refine ⟨rfl, ?_⟩
  rw [validateInput_ok_iff]
  constructor
  · rintro ⟨L, d, heq, hd, h1, h9, hcol⟩
    rw [heq]
    exact ⟨rfl, by simpa using hd, h1, h9, by simpa using hcol⟩
  · rintro ⟨hlen, hd, h1, h9, hcol⟩
    rcases hdata : t.data with _ | ⟨L, _ | ⟨d, _ | ⟨e, rest⟩⟩⟩
    · rw [hdata] at hlen
      simp at hlen
    · rw [hdata] at hlen
      simp at hlen
    · rw [hdata] at hd hcol
      exact ⟨L, d, rfl, by simpa using hd, h1, h9, by simpa using hcol⟩
    · rw [hdata] at hlen
      simp at hlen

/-- C1 counterexample: on the fresh board the never-visited position
(9,1), spelled "A9", lies outside the 8×8 playable bounds (indeed
outside the grid), yet validation returns Ok instead of rejecting. -/
theorem C1_counterexample :
    validateInput newBoard "A9" = Except.ok (9, 1) ∧
    ¬ spec_playableBounds 9 1 ∧
    cellAt newBoard 9 1 = none := by decide

/-- C2 (corrected): an applied turn never turns a written (non-Available)
cell back into an Available one: the set of visited cells only grows.
(The original claim — Blocked is terminal — fails: a Blocked cell can be
re-occupied, see `C2_counterexample`.) -/
theorem C2_visited_monotone (b : Board) (input : String) (b' : Board)
    (h : Turn b input = turnOutcome.ok b') (i j : Nat)
    (hv : visitedCell b i j) : visitedCell b' i j := by
  obtain ⟨r, c, hval, b1, hm, rfl⟩ := Turn_ok_spec b input b' h
  obtain ⟨_, _, _, hcells, _, _, _, _⟩ := move_spec b r c b1 hm
  unfold visitedCell at hv ⊢
  show cellAt b1 i j ≠ some cellStatus.Available ∧ cellAt b1 i j ≠ none
  rw [hcells i j]
  by_cases h1 : i = r ∧ j = c
  · rw [if_pos h1]
    unfold moverStatus
    by_cases ht : b.playerOneTurn
    · rw [if_pos ht]
      exact ⟨by simp, by simp⟩
    · rw [if_neg ht]
      exact ⟨by simp, by simp⟩
  · rw [if_neg h1]
    by_cases h2 : 0 < (moverPrior b).1 ∧ i = (moverPrior b).1 ∧ j = (moverPrior b).2
    · rw [if_pos h2]
      exact ⟨by simp, by simp⟩
    · rw [if_neg h2]
      exact hv

/-- C2 witness: after "A1","B2" the cell (1,1) is visited, and it is
still visited after the applied turn "B1". -/
theorem C2_witness : visitedCell bC2w 1 1 :=
  C2_visited_monotone bC2pre "B1" bC2w (by decide) 1 1 (by decide)

/-- C2 counterexample: after "A1","B2","B1","C2" the cell (1,1) is
Blocked, yet after the further applied move "A1" it is Occupied by
player one again — Blocked is not terminal. -/
theorem C2_counterexample :
    run newBoard ["A1", "B2", "B1", "C2"] = some bC2cex1 ∧
    cellAt bC2cex1 1 1 = some cellStatus.Block ∧
    run newBoard ["A1", "B2", "B1", "C2", "A1"] = some bC2cex2 ∧
    cellAt bC2cex2 1 1 = some cellStatus.Player1Occupied := by decide

/-- C3 (corrected): an applied move for the current player X leaves the
destination Occupied-by-X and X occupies exactly that one cell; when
X had a prior position different from the destination, that prior cell
ends Blocked; and at most one cell newly becomes Blocked (only X's
prior position can).  The original claim's "exactly one additional
Blocked cell per later move" fails, see `C3_counterexample`. -/
theorem C3_move_effect (b : Board) (input : String) (b' : Board) (r c : Nat)
    (hreach : Reachable b)
    (hval : validateInput b (trimSpace input) = Except.ok (r, c))
    (h : Turn b input = turnOutcome.ok b') :
    cellAt b' r c = some (moverStatus b) ∧
    (∀ i j, cellAt b' i j = some (moverStatus b) → i = r ∧ j = c) ∧
    (0 < (moverPrior b).1 → ((moverPrior b).1 ≠ r ∨ (moverPrior b).2 ≠ c) →
      cellAt b' (moverPrior b).1 (moverPrior b).2 = some cellStatus.Block) ∧
    (∀ i j, cellAt b' i j = some cellStatus.Block →
      cellAt b i j = some cellStatus.Block ∨
        (i = (moverPrior b).1 ∧ j = (moverPrior b).2)) := by
  have hInv2 := Inv_Turn b input b' (Reachable_Inv b hreach) h
  obtain ⟨r2, c2, hval2, b1, hm, rfl⟩ := Turn_ok_spec b input b' h
  obtain ⟨hr2, hc2⟩ : r = r2 ∧ c = c2 := by
    rw [hval] at hval2
    exact ⟨congrArg Prod.fst (Except.ok.inj hval2),
      congrArg Prod.snd (Except.ok.inj hval2)⟩
  subst hr2
  subst hc2
  obtain ⟨hteq, hp1, hp2, hcells, _, _, _, _⟩ := move_spec b r c b1 hm
  obtain ⟨_, _, _, _, i5, i6, _, _, _, _, _, _⟩ := hInv2
  refine ⟨?_, ?_, ?_, ?_⟩
  · show cellAt b1 r c = _
    rw [hcells r c, if_pos ⟨rfl, rfl⟩]
  · intro i j hcell
    by_cases ht : b.playerOneTurn = true
    · have hms : moverStatus b = cellStatus.Player1Occupied := by
        rw [moverStatus, if_pos ht]
      rw [hms] at hcell
      obtain ⟨g1, g2⟩ := i5 i j hcell
      obtain ⟨e1, e2, _, _⟩ := hp1 ht
      exact ⟨by rw [g1]; exact e1, by rw [g2]; exact e2⟩
    · have hf : b.playerOneTurn = false := by simpa using ht
      have hms : moverStatus b = cellStatus.Player2Occupied := by
        rw [moverStatus, hf]
        rfl
      rw [hms] at hcell
      obtain ⟨g1, g2⟩ := i6 i j hcell
      obtain ⟨e1, e2, _, _⟩ := hp2 hf
      exact ⟨by rw [g1]; exact e1, by rw [g2]; exact e2⟩
  · intro hpos hne
    show cellAt b1 _ _ = _
    rw [hcells]
    rw [if_neg (by
      rintro ⟨h1, h2⟩
      rcases hne with hh | hh
      · exact hh h1
      · exact hh h2)]
    rw [if_pos ⟨hpos, rfl, rfl⟩]
  · intro i j hcell
    have hc1 : cellAt b1 i j = some cellStatus.Block := hcell
    rw [hcells i j] at hc1
    by_cases h1 : i = r ∧ j = c
    · rw [if_pos h1] at hc1
      exfalso
      unfold moverStatus at hc1
      by_cases ht : b.playerOneTurn
      · rw [if_pos ht] at hc1
        exact absurd (Option.some.inj hc1) (by decide)
      · rw [if_neg ht] at hc1
        exact absurd (Option.some.inj hc1) (by decide)
    · rw [if_neg h1] at hc1
      by_cases h2 : 0 < (moverPrior b).1 ∧ i = (moverPrior b).1 ∧ j = (moverPrior b).2
      · exact Or.inr ⟨h2.2.1, h2.2.2⟩
      · rw [if_neg h2] at hc1
        exact Or.inl hc1

/-- C3 witness: player one's move "B1" from the reachable board after
"A1","B2" leaves the destination (1,2) occupied by the mover. -/
theorem C3_witness : cellAt bC3w 1 2 = some (moverStatus bC3pre) :=
  (C3_move_effect bC3pre "B1" bC3w 1 2 ⟨["A1", "B2"], by decide⟩
    (by decide) (by decide)).1

/-- C3 counterexample: after "A1","B2" player one (whose prior position
is (1,1)) plays "A1" again — a second-or-later move — yet afterwards no
cell at all is Blocked and the prior cell is Occupied, not Blocked. -/
theorem C3_counterexample :
    run newBoard ["A1", "B2"] = some bC3pre2 ∧
    bC3pre2.playerOneTurn = true ∧
    0 < bC3pre2.playerOneRow ∧
    Turn bC3pre2 "A1" = turnOutcome.ok bC3cex ∧
    statusCount bC3cex cellStatus.Block = 0 ∧
    cellAt bC3cex 1 1 = some cellStatus.Player1Occupied := by decide

/-- C4 (corrected): after any applied move the machine always hands the
turn to the other player — there is no terminal state: from every
reachable successor another move ("A1") is still accepted.  The
original Finished/Draw transition does not exist in the code, see
`C4_counterexample`. -/
theorem C4_always_next_player (b : Board) (input : String) (b' : Board)
    (hreach : Reachable b) (h : Turn b input = turnOutcome.ok b') :
    b'.playerOneTurn = !b.playerOneTurn ∧ turnIsOk (Turn b' "A1") = true := by
  refine ⟨Turn_ok_flips b input b' h, ?_⟩
  exact Turn_A1_ok_of_Inv b' (Reachable_Inv b' (Reachable_step b input b' hreach h))

/-- C4 witness: player one's opening "A1" hands the turn to player two
and the game goes on. -/
theorem C4_witness :
    bC4w.playerOneTurn = !newBoard.playerOneTurn ∧ turnIsOk (Turn bC4w "A1") = true :=
  C4_always_next_player newBoard "A1" bC4w ⟨[], rfl⟩ (by decide)

/-- C4 counterexample: after 64 applied moves every playable cell is
occupied or blocked, so the player to move (player one) has zero empty
cells — yet the machine is simply awaiting player one's move and even
accepts a further move, instead of being in a terminal Finished
state. -/
theorem C4_counterexample :
    run newBoard fullGameInputs = some bC4full ∧
    availPlayable bC4full = 0 ∧
    bC4full.playerOneTurn = true ∧
    Turn bC4full "A1" = turnOutcome.ok bC4after := by decide

/-- C5 (confirmed): starting from the initial board, after any input
sequence (rejected attempts included) the player to move is player one
exactly when the number of successfully applied moves is even. -/
theorem C5_turn_alternation (inputs : List String) (b : Board)
    (h : run newBoard inputs = some b) :
    (b.playerOneTurn = true ↔ countApplied newBoard inputs % 2 = 0) := by
  rw [run_parity inputs newBoard b h]
  rcases Nat.mod_two_eq_zero_or_one (countApplied newBoard inputs) with hpar | hpar
  · rw [if_pos hpar]
    exact ⟨fun _ => hpar, fun _ => rfl⟩
  · rw [if_neg (by omega)]
    constructor
    · intro hcontra
      exact absurd hcontra (by decide)
    · intro hc
      exact absurd hc (by omega)

/-- C5 witness: two applied moves with a rejected "Z1" in between leave
player one to move. -/
theorem C5_witness :
    (bC5w.playerOneTurn = true ↔ countApplied newBoard ["A1", "Z1", "B2"] % 2 = 0) :=
  C5_turn_alternation ["A1", "Z1", "B2"] bC5w (by decide)

/-- C6 (confirmed): whenever validation of the trimmed input fails, the
turn returns exactly that error and the loop continues with the very
same state (grid, positions and turn flag all unchanged), so the same
player moves next. -/
theorem C6_invalid_input_state_unchanged (b : Board) (input : String) (e : inputError)
    (h : validateInput b (trimSpace input) = Except.error e) :
    Turn b input = turnOutcome.rejected e ∧ run b [input] = some b := by
  have h1 : Turn b input = turnOutcome.rejected e := by
    unfold Turn
    rw [h]
  refine ⟨h1, ?_⟩
  rw [run, h1]
  rfl

/-- C6 witness: "Z1" is rejected (unknown column) on the fresh board and
the state is unchanged. -/
theorem C6_witness :
    Turn newBoard "Z1" = turnOutcome.rejected (inputError.columnDoesNotExist 'Z') ∧
    run newBoard ["Z1"] = some newBoard :=
  C6_invalid_input_state_unchanged newBoard "Z1"
    (inputError.columnDoesNotExist 'Z') (by decide)

/-- C7 (code bug): contrary to the claim, token "A9" is not rejected
with a row-out-of-range error: the row check `row > gridSize` uses the
full 9-wide array size although the playable board has rows 1..8, so
"A9" is accepted as (9,1) — and the subsequent move then indexes row 9
of the 9-element Rows array, which panics (crash). -/
theorem C7_a9_accepted :
    validateInput newBoard "A9" = Except.ok (9, 1) ∧
    Turn newBoard "A9" = turnOutcome.crash := by decide

/-- C8 (confirmed): for every playable position (r,c) in 1..8 × 1..8,
parsing the token spelled by the rendered labels returns exactly (r,c),
and for each of the 64 valid tokens "A1".."H8" parsing then rendering
the labels reproduces the original token. -/
theorem C8_parse_render_roundtrip :
    (∀ r0, r0 < 8 → ∀ c0, c0 < 8 →
      (labelToken (r0 + 1) (c0 + 1)).map (validateInput newBoard) =
        some (Except.ok (r0 + 1, c0 + 1))) ∧
    (∀ t ∈ playableTokens, parseThenLabel t = some t) := by
  refine ⟨?_, ?_⟩
  · decide
  · decide

/-- C8 witness: position (7,3) renders as "C7" which parses back to
(7,3), and the token "C7" round-trips. -/
theorem C8_witness :
    (labelToken 7 3).map (validateInput newBoard) = some (Except.ok (7, 3)) ∧
    parseThenLabel "C7" = some "C7" :=
  ⟨C8_parse_render_roundtrip.1 6 (by decide) 2 (by decide),
   C8_parse_render_roundtrip.2 "C7" (by decide)⟩

/-- C9 (confirmed): along every run from the fresh board, all cells of
header row 0 and header column 0 of the 9×9 array stay Available:
every accepted move has row ≥ 1 and column ≥ 1 and blocking writes
inherit that. -/
theorem C9_header_row_col_stay_available (inputs : List String) (b : Board)
    (h : run newBoard inputs = some b) (k : Nat) (hk : k < gridSize) :
    cellAt b 0 k = some cellStatus.Available ∧
    cellAt b k 0 = some cellStatus.Available := by
  have hInv := run_Inv inputs newBoard b Inv_newBoard h
  exact ⟨hInv.2.2.1 k hk, hInv.2.2.2.1 k hk⟩

/-- C9 witness: after "A1","B2" the header cells (0,5) and (5,0) are
still Available. -/
theorem C9_witness :
    cellAt bC9w 0 5 = some cellStatus.Available ∧
    cellAt bC9w 5 0 = some cellStatus.Available :=
  C9_header_row_col_stay_available ["A1", "B2"] bC9w (by decide) 5 (by decide)

/-- C10 (code bug): contrary to the claim, an accepted token can index
outside the 9×9 Rows array: "I1" is accepted as (1,9), but row lists
have indices 0..8, so the cell (1,9) does not exist and the move
panics (crash) instead of performing a safe write. -/
theorem C10_accepted_token_out_of_range :
    validateInput newBoard "I1" = Except.ok (1, 9) ∧
    cellAt newBoard 1 9 = none ∧
    Turn newBoard "I1" = turnOutcome.crash := by decide

end Capture
